import Mathlib

/-!
Shallow embedding of `volcengine-podcast.py`: the dialogue parser
(`parse_podcast_script`), the request segmenter (`build_nlp_texts`,
`_split_text`, here `split_text`), and the resumable protocol session
loop (`generate_podcast`), together with theorems settling the frozen
claims about them.

Text is modelled as `List Char`.  Python `str.strip()` is modelled over
the ASCII whitespace set `[' ', '\t', '\n', '\r', '\x0b', '\x0c']`
(the regex class `\s` is modelled over the same set).  Audio bytes are
modelled as `List Nat`.
-/

namespace Podcast

/-- Whitespace characters stripped by Python `str.strip()` and matched
by the regex class used in the source. -/
def wsChars : List Char := [' ', '\t', '\n', '\r', '\x0b', '\x0c']

/-- Colon characters accepted by the speaker-marker regex. -/
def colonChars : List Char := [':', '：']

def isWs (c : Char) : Bool := wsChars.contains c

def isColon (c : Char) : Bool := colonChars.contains c

/-- Strip every character of `bad` from both ends of `l`
(Python `str.strip(chars)`). -/
def stripChars (bad : List Char) (l : List Char) : List Char :=
  ((l.dropWhile (fun c => bad.contains c)).reverse.dropWhile
    (fun c => bad.contains c)).reverse

/-- Python `str.strip()` (no argument): strip whitespace at both ends. -/
def pyStrip : List Char → List Char := stripChars wsChars

/-- Python `str.strip('* ')` as applied to the raw marker group. -/
def stripSS : List Char → List Char := stripChars ['*', ' ']

/-- Concatenation of a list of character lists (Python `''.join`). -/
def joinAll : List (List Char) → List Char
  | [] => []
  | x :: xs => x ++ joinAll xs

/-- A speaker-tagged dialogue turn (`{'speaker': ..., 'text': ...}`). -/
structure Turn where
  speaker : String
  text : List Char
deriving DecidableEq

/-- One entry of the `nlp_texts` payload (`{'text': ..., 'speaker': ...}`). -/
structure Seg where
  text : List Char
  speaker : String
deriving DecidableEq

/-- Sentence-ending separator characters of the splitting regex in
`_split_text` (source line 137). -/
def seps : List Char := ['。', '！', '？', '!', '?', '\n']

/-- Python `re.split` with a capturing group of single separator
characters: the result alternates (possibly empty) separator-free runs
with singleton separators, and concatenates back to the input. -/
def pySplitKeep : List Char → List (List Char)
  | [] => [[]]
  | c :: rest =>
    if c ∈ seps then [] :: [c] :: pySplitKeep rest
    else
      match pySplitKeep rest with
      | r :: rs => (c :: r) :: rs
      | [] => [[c]]

/-- The greedy packing loop of `_split_text` (source lines 136-145):
`chunks` is the accumulated output, `chunk` the current chunk. -/
def packGo (maxLen : Nat) : List (List Char) → List (List Char) → List Char →
    List (List Char)
  | [], chunks, chunk => if chunk ≠ [] then chunks ++ [chunk] else chunks
  | p :: ps, chunks, chunk =>
    if chunk.length + p.length > maxLen ∧ chunk ≠ [] then
      packGo maxLen ps (chunks ++ [chunk]) p
    else
      packGo maxLen ps chunks (chunk ++ p)

/-- `_split_text(text, max_len)` (source lines 134-145). -/
def split_text (text : List Char) (maxLen : Nat) : List (List Char) :=
  packGo maxLen (pySplitKeep text) [] []

/-- The per-turn body of the loop in `build_nlp_texts`
(source lines 108-118): strip, emit whole when at most 300 characters,
otherwise split with soft limit 280. -/
def turnSegments (turn : Turn) : List Seg :=
  let text := pyStrip turn.text
  if text = [] then []
  else if text.length ≤ 300 then [⟨text, turn.speaker⟩]
  else (split_text text 280).map (fun chunk => ⟨chunk, turn.speaker⟩)

/-- The whole segmentation loop of `build_nlp_texts` before trimming. -/
def buildSegs : List Turn → List Seg
  | [] => []
  | t :: ts => turnSegments t ++ buildSegs ts

/-- `sum(len(t['text']) for t in nlp_texts)`. -/
def totalLen : List Seg → Nat
  | [] => 0
  | sg :: rest => sg.text.length + totalLen rest

/-- The trimming loop of `build_nlp_texts` (source lines 123-129):
keep segments while the running total stays at most 9800, stop at the
first segment that would push it beyond. -/
def trimSegs : List Seg → Nat → List Seg
  | [], _ => []
  | t :: rest, running =>
    if running + t.text.length > 9800 then []
    else t :: trimSegs rest (running + t.text.length)

/-- `build_nlp_texts(turns)` (source lines 105-131).  The second
component models the truncation warning: `some total` records the
pre-trim total character count printed in the warning, `none` means no
warning was printed. -/
def build_nlp_texts (turns : List Turn) : List Seg × Option Nat :=
  let pre := buildSegs turns
  let total := totalLen pre
  if total > 10000 then (trimSegs pre 0, some total) else (pre, none)

/-! ## Dialogue parser (`parse_podcast_script`, source lines 60-102) -/

/-- Split on newline characters (Python `str.split('\n')`). -/
def splitNl : List Char → List (List Char)
  | [] => [[]]
  | c :: rest =>
    if c = '\n' then [] :: splitNl rest
    else
      match splitNl rest with
      | r :: rs => (c :: r) :: rs
      | [] => [[c]]

def dropWs (l : List Char) : List Char := l.dropWhile isWs

/-- Marker alternative 1 of the regex: a single `A` or `B`, optional
whitespace, then a colon.  Returns the raw group and the remainder. -/
def matchAlt1 : List Char → Option (List Char × List Char)
  | [] => none
  | c :: rest =>
    if c = 'A' ∨ c = 'B' then
      match dropWs rest with
      | d :: rest2 => if isColon d then some ([c], rest2) else none
      | [] => none
    else none

/-- Marker alternative 2: `【name】` with a nonempty bracket-free name
(no colon required). -/
def matchAlt2 : List Char → Option (List Char × List Char)
  | [] => none
  | c :: rest =>
    if c = '【' then
      let run := rest.takeWhile (fun x => x ≠ '】')
      match rest.dropWhile (fun x => x ≠ '】') with
      | d :: rest2 => if run ≠ [] ∧ d = '】' then some (run, rest2) else none
      | [] => none
    else none

/-- Marker alternative 3: `**name**` followed by optional whitespace and
a colon; the raw group keeps the stars (stripped later). -/
def matchAlt3 : List Char → Option (List Char × List Char)
  | a :: b :: rest =>
    if a = '*' ∧ b = '*' then
      let run := rest.takeWhile (fun x => x ≠ '*')
      match rest.dropWhile (fun x => x ≠ '*') with
      | c :: d :: rest2 =>
        if run ≠ [] ∧ c = '*' ∧ d = '*' then
          match dropWs rest2 with
          | e :: rest3 =>
            if isColon e then some ('*' :: '*' :: (run ++ ['*', '*']), rest3)
            else none
          | [] => none
        else none
      | _ => none
    else none
  | _ => none

/-- Marker alternative 4: one to ten characters that are neither
whitespace nor colons, optional whitespace, then a colon.  The
character class excludes whitespace and colons, so the backtracking
regex matches exactly when the maximal such run has length 1..10 and
is followed (after whitespace) by a colon. -/
def matchAlt4 (l : List Char) : Option (List Char × List Char) :=
  let run := l.takeWhile (fun c => !(isWs c) && !(isColon c))
  if 1 ≤ run.length ∧ run.length ≤ 10 then
    match dropWs (l.drop run.length) with
    | d :: rest2 => if isColon d then some (run, rest2) else none
    | [] => none
  else none

/-- The full anchored marker regex of source line 65-67, alternatives
tried in order; on success returns the marker token already passed
through `strip('* ')` and the stripped content after the marker
(group 5 of the regex followed by `.strip()`). -/
def matchMarker (line : List Char) : Option (List Char × List Char) :=
  match matchAlt1 line with
  | some (g, rest) => some (stripSS g, pyStrip rest)
  | none =>
    match matchAlt2 line with
    | some (g, rest) => some (stripSS g, pyStrip rest)
    | none =>
      match matchAlt3 line with
      | some (g, rest) => some (stripSS g, pyStrip rest)
      | none =>
        match matchAlt4 line with
        | some (g, rest) => some (stripSS g, pyStrip rest)
        | none => none

/-- Python `str.upper()` restricted to ASCII letters (sufficient for
the reserved-marker comparison in the source). -/
def pyUpper (l : List Char) : List Char :=
  l.map (fun c => if 'a' ≤ c ∧ c ≤ 'z' then Char.ofNat (c.toNat - 32) else c)

/-- Reserved tokens bound directly to the first voice (source line 84). -/
def reservedA : List (List Char) := [['A'], "主持人A".toList, ['甲']]

/-- Reserved tokens bound directly to the second voice (source line 86). -/
def reservedB : List (List Char) := [['B'], "主持人B".toList, ['乙']]

def isReservedA (raw : List Char) : Bool := reservedA.contains (pyUpper raw)

def isReservedB (raw : List Char) : Bool := reservedB.contains (pyUpper raw)

def lookupTok (smap : List (List Char × String)) (raw : List Char) :
    Option String :=
  match smap with
  | [] => none
  | (k, v) :: rest => if k = raw then some v else lookupTok rest raw

/-- Speaker binding (source lines 84-91): reserved tokens map directly;
a new non-reserved token is bound to the first voice when the map is
empty and to the second voice otherwise. -/
def resolveSpeaker (raw : List Char) (smap : List (List Char × String))
    (a b : String) : String × List (List Char × String) :=
  if isReservedA raw then (a, smap)
  else if isReservedB raw then (b, smap)
  else
    match lookupTok smap raw with
    | some v => (v, smap)
    | none =>
      if smap.length = 0 then (a, smap ++ [(raw, a)])
      else (b, smap ++ [(raw, b)])

/-- Parser loop state: accumulated turns, the speaker map, the current
speaker and the current turn's text pieces. -/
structure PState where
  turns : List Turn
  smap : List (List Char × String)
  current : Option String
  curText : List (List Char)
deriving DecidableEq

/-- Closing the currently open turn (source lines 80-81 and 99-100):
append it only when a speaker is open and text has accumulated. -/
def flushTurn (st : PState) : List Turn :=
  match st.current with
  | some v => if st.curText ≠ [] then st.turns ++ [⟨v, joinAll st.curText⟩] else st.turns
  | none => st.turns

/-- One iteration of the line loop (source lines 73-97). -/
def stepLine (a b : String) (st : PState) (rawLine : List Char) : PState :=
  let line := pyStrip rawLine
  if line = [] then st
  else
    match matchMarker line with
    | some (raw, content) =>
      let turns2 := flushTurn st
      let (v, smap2) := resolveSpeaker raw st.smap a b
      { turns := turns2, smap := smap2, current := some v,
        curText := if content ≠ [] then [content] else [] }
    | none =>
      match st.current with
      | some _ => { st with curText := st.curText ++ [line] }
      | none => st

/-- `parse_podcast_script(text, speaker_a, speaker_b)`
(source lines 60-102). -/
def parse_podcast_script (text : List Char) (a b : String) : List Turn :=
  flushTurn ((splitNl (pyStrip text)).foldl (stepLine a b) ⟨[], [], none, []⟩)

/-- The `--text` branch of `main` (source lines 389-401) up to the
construction of the request payload: an empty parse is a fatal
configuration error (`sys.exit(1)`) raised before `generate_podcast`
is ever called, i.e. before any connection attempt. -/
def mainTextMode (script : List Char) (a b : String) : Except Nat (List Seg) :=
  let turns := parse_podcast_script script a b
  if turns.isEmpty then Except.error 1
  else Except.ok (build_nlp_texts turns).1

/-! ## Protocol session (`generate_podcast`, source lines 152-333)

Messages delivered by `receive_message` are modelled by `Msg`; the
JSON fields the loop reads (`round_id`, `is_error`) are carried as
structure fields.  One connection attempt is described by an
`AttemptScript`: whether the connect/handshake raises, the messages the
streaming loop receives (an exhausted list models a receive that
raises), and whether the connection teardown raises.  Session ids are
modelled as the 1-based attempt index; `task_id = 0` models the empty
string. -/

inductive MsgType where
  | AudioOnlyServer
  | Error
  | FullServerResponse
  | OtherMsg
deriving DecidableEq

inductive EventType where
  | PodcastRoundResponse
  | PodcastRoundStart
  | PodcastRoundEnd
  | PodcastEnd
  | UsageResponse
  | SessionFinished
  | OtherEvent
deriving DecidableEq

structure Msg where
  type : MsgType
  event : EventType
  payload : List Nat
  roundId : Int
  isError : Bool
deriving DecidableEq

/-- One connection attempt as seen by the client. -/
structure AttemptScript where
  preFail : Bool
  msgs : List Msg
  postFail : Bool
deriving DecidableEq

/-- The mutable state of `generate_podcast` (source lines 172-178 plus
the `retry_info` entry of the request dictionary). -/
structure RunState where
  podcast_audio : List Nat
  round_audio : List Nat
  round_count : Nat
  current_round : Int
  last_round_id : Int
  task_id : Nat
  is_round_end : Bool
  retry_num : Nat
  retry_info : Option (Nat × Int)
deriving DecidableEq

/-- How the inner receive loop ends: `fatal` models both an
error-typed message (direct `return False`) and a raising receive
(caught by the outermost handler, also `return False`); `brk` models
`break` (round-end error or session finished). -/
inductive LoopExit where
  | fatal
  | brk
deriving DecidableEq

/-- The commit of a finished round (source lines 266-270): append the
pending audio to the committed buffer and clear it, guarded by the
pending buffer being nonempty. -/
def commitRound (s : RunState) : RunState :=
  if s.round_audio = [] then s
  else { s with podcast_audio := s.podcast_audio ++ s.round_audio, round_audio := [] }

/-- The receive loop (source lines 218-299), one case per branch of the
dispatch, with the trailing session-finished check applied to every
message that neither returned nor broke. -/
def streamLoop : List Msg → RunState → RunState × LoopExit
  | [], s => (s, LoopExit.fatal)
  | m :: rest, s =>
    if m.type = MsgType.AudioOnlyServer ∧ m.event = EventType.PodcastRoundResponse then
      streamLoop rest { s with round_audio := s.round_audio ++ m.payload }
    else if m.type = MsgType.Error then (s, LoopExit.fatal)
    else if m.type = MsgType.FullServerResponse ∧ m.event = EventType.PodcastRoundStart then
      streamLoop rest
        { s with current_round := m.roundId, round_count := s.round_count + 1,
                 is_round_end := false }
    else if m.type = MsgType.FullServerResponse ∧ m.event = EventType.PodcastRoundEnd then
      if m.isError then (s, LoopExit.brk)
      else
        streamLoop rest
          (commitRound { s with is_round_end := true, last_round_id := s.current_round })
    else if m.event = EventType.SessionFinished then (s, LoopExit.brk)
    else streamLoop rest s

/-- The `retry_info` value the request dictionary holds when
`start_session` is sent (source lines 188-192): freshly populated when
resuming, otherwise whatever the dictionary already held. -/
def sentInfo (s : RunState) : Option (Nat × Int) :=
  if s.is_round_end = false ∧ s.task_id ≠ 0 then some (s.task_id, s.last_round_id)
  else s.retry_info

/-- State updates between connect and the receive loop (source lines
188-215): populate `retry_info`, adopt the fresh session id as task id
when none is set yet, reset the per-round buffer. -/
def attemptStart (s : RunState) (sid : Nat) : RunState :=
  { s with retry_info := sentInfo s,
           task_id := if s.task_id = 0 then sid else s.task_id,
           round_audio := [] }

/-- Outcome of a whole run.  `written` is the artifact file content
(`none` when no file is produced), `attemptsUsed` counts connect calls,
`sentRetryInfos` records, per attempt that reached `start_session`, the
`retry_info` carried by the request, `committed` is the final committed
buffer, `exhausted` is true exactly when the retry loop ended by
draining `retry_num` to zero. -/
structure RunResult where
  ok : Bool
  written : Option (List Nat)
  attemptsUsed : Nat
  sentRetryInfos : List (Option (Nat × Int))
  committed : List Nat
  exhausted : Bool
deriving DecidableEq

/-- The save epilogue (source lines 322-333): write the committed
buffer when nonempty and succeed, otherwise fail with no file. -/
def finishRun (s : RunState) (n : Nat) (infos : List (Option (Nat × Int)))
    (exh : Bool) : RunResult :=
  if s.podcast_audio = [] then ⟨false, none, n, infos, s.podcast_audio, exh⟩
  else ⟨true, some s.podcast_audio, n, infos, s.podcast_audio, exh⟩

/-- Any exception reaching the outermost handler, and any error-typed
message: `return False` before the save epilogue — no file. -/
def fatalRun (committed : List Nat) (n : Nat)
    (infos : List (Option (Nat × Int))) : RunResult :=
  ⟨false, none, n, infos, committed, false⟩

/-- The retry loop `while retry_num > 0` (source lines 184-315).  An
exhausted script list while another attempt is due models a connect
whose transport raises. -/
def retryLoop : List AttemptScript → RunState → Nat →
    List (Option (Nat × Int)) → RunResult
  | [], s, n, infos =>
    if s.retry_num = 0 then finishRun s n infos true
    else fatalRun s.podcast_audio n infos
  | sc :: rest, s, n, infos =>
    if s.retry_num = 0 then finishRun s n infos true
    else if sc.preFail then fatalRun s.podcast_audio (n + 1) infos
    else
      match streamLoop sc.msgs (attemptStart s (n + 1)) with
      | (s1, LoopExit.fatal) =>
        fatalRun s1.podcast_audio (n + 1) (infos ++ [sentInfo s])
      | (s1, LoopExit.brk) =>
        if sc.postFail then fatalRun s1.podcast_audio (n + 1) (infos ++ [sentInfo s])
        else if s1.is_round_end then finishRun s1 (n + 1) (infos ++ [sentInfo s]) false
        else
          retryLoop rest { s1 with retry_num := s1.retry_num - 1 } (n + 1)
            (infos ++ [sentInfo s])

/-- Initial state (source lines 172-178): empty buffers, no task id,
`last_round_id = -1`, `is_round_end = True`, `retry_num = 5`. -/
def initRunState : RunState := ⟨[], [], 0, 0, -1, 0, true, 5, none⟩

/-- `generate_podcast` on a sequence of attempt scripts. -/
def generate_podcast (scripts : List AttemptScript) : RunResult :=
  retryLoop scripts initRunState 0 []

/-! ### Message constructors used by concrete scenarios -/

def rsMsg (rid : Int) : Msg :=
  ⟨MsgType.FullServerResponse, EventType.PodcastRoundStart, [], rid, false⟩

def audMsg (bytes : List Nat) : Msg :=
  ⟨MsgType.AudioOnlyServer, EventType.PodcastRoundResponse, bytes, 0, false⟩

def reOk : Msg := ⟨MsgType.FullServerResponse, EventType.PodcastRoundEnd, [], 0, false⟩

def reErr : Msg := ⟨MsgType.FullServerResponse, EventType.PodcastRoundEnd, [], 0, true⟩

def sfMsg : Msg := ⟨MsgType.FullServerResponse, EventType.SessionFinished, [], 0, false⟩

def errMsg : Msg := ⟨MsgType.Error, EventType.OtherEvent, [], 0, false⟩

/-! ## Segmenter lemmas -/

theorem joinAll_append (xs ys : List (List Char)) :
    joinAll (xs ++ ys) = joinAll xs ++ joinAll ys := by
  induction xs with
  | nil => rfl
  | cons x xs ih => simp [joinAll, ih]

theorem pySplitKeep_ne_nil (l : List Char) : pySplitKeep l ≠ [] := by
  cases l with
  | nil => simp [pySplitKeep]
  | cons c rest =>
    unfold pySplitKeep
    by_cases h : c ∈ seps
    · rw [if_pos h]; simp
    · rw [if_neg h]
      cases pySplitKeep rest <;> simp

theorem pySplitKeep_join (l : List Char) : joinAll (pySplitKeep l) = l := by
  induction l with
  | nil => rfl
  | cons c rest ih =>
    unfold pySplitKeep
    by_cases h : c ∈ seps
    · rw [if_pos h]; simp [joinAll, ih]
    · rw [if_neg h]
      cases hs : pySplitKeep rest with
      | nil => exact absurd hs (pySplitKeep_ne_nil rest)
      | cons r rs => rw [hs] at ih; simpa [joinAll] using ih

/-- Every piece produced by the splitting regex is a singleton
separator or a separator-free run, and the leading piece is always a
separator-free run. -/
theorem pySplitKeep_pieces (l : List Char) :
    (∀ p ∈ pySplitKeep l, p.length ≤ 1 ∨ ∀ c ∈ p, c ∉ seps) ∧
    (∀ r rs, pySplitKeep l = r :: rs → ∀ c ∈ r, c ∉ seps) := by
  induction l with
  | nil =>
    constructor
    · intro p hp; simp [pySplitKeep] at hp; simp [hp]
    · intro r rs hr; simp [pySplitKeep] at hr; simp [hr.1]
  | cons c rest ih =>
    by_cases h : c ∈ seps
    · have hs : pySplitKeep (c :: rest) = [] :: [c] :: pySplitKeep rest := by
        conv_lhs => rw [pySplitKeep]
        rw [if_pos h]
      constructor
      · intro p hp
        rw [hs] at hp
        rcases List.mem_cons.mp hp with rfl | hp
        · simp
        rcases List.mem_cons.mp hp with rfl | hp
        · simp
        · exact ih.1 p hp
      · intro r rs hr
        rw [hs] at hr
        cases hr
        simp
    · cases hrec : pySplitKeep rest with
      | nil => exact absurd hrec (pySplitKeep_ne_nil rest)
      | cons r rs =>
        have hs : pySplitKeep (c :: rest) = (c :: r) :: rs := by
          conv_lhs => rw [pySplitKeep]
          rw [if_neg h, hrec]
        have hrfree : ∀ d ∈ r, d ∉ seps := ih.2 r rs hrec
        have hhead : ∀ d ∈ c :: r, d ∉ seps := by
          intro d hd
          rcases List.mem_cons.mp hd with rfl | hd
          · exact h
          · exact hrfree d hd
        constructor
        · intro p hp
          rw [hs] at hp
          rcases List.mem_cons.mp hp with rfl | hp
          · exact Or.inr hhead
          · exact ih.1 p (hrec ▸ List.mem_cons_of_mem r hp)
        · intro r2 rs2 hr2
          rw [hs] at hr2
          cases hr2
          exact hhead

/-- Concatenating the packed chunks preserves all content in order. -/
theorem packGo_join (maxLen : Nat) (ps : List (List Char)) :
    ∀ chunks : List (List Char), ∀ chunk : List Char,
    joinAll (packGo maxLen ps chunks chunk)
      = joinAll chunks ++ chunk ++ joinAll ps := by
  induction ps with
  | nil =>
    intro chunks chunk
    unfold packGo
    by_cases h : chunk ≠ []
    · rw [if_pos h]; simp [joinAll_append, joinAll]
    · rw [if_neg h]; simp at h; simp [h, joinAll]
  | cons p ps ih =>
    intro chunks chunk
    unfold packGo
    by_cases h : chunk.length + p.length > maxLen ∧ chunk ≠ []
    · rw [if_pos h, ih, joinAll_append]
      simp [joinAll, List.append_assoc]
    · rw [if_neg h, ih]
      simp [joinAll, List.append_assoc]

theorem split_text_join (text : List Char) (maxLen : Nat) :
    joinAll (split_text text maxLen) = text := by
  simp [split_text, packGo_join, joinAll, pySplitKeep_join]

/-- Invariant of the greedy packer: if every piece is a singleton or a
separator-free run, every emitted chunk is within the limit or is a
separator-free run (a single oversized sentence emitted whole). -/
theorem packGo_inv (maxLen : Nat) (hm : 1 ≤ maxLen) (ps : List (List Char)) :
    ∀ chunks : List (List Char), ∀ chunk : List Char,
    (∀ p ∈ ps, p.length ≤ 1 ∨ ∀ c ∈ p, c ∉ seps) →
    (∀ c ∈ chunks, c.length ≤ maxLen ∨ ∀ ch ∈ c, ch ∉ seps) →
    (chunk = [] ∨ chunk.length ≤ maxLen ∨ ∀ ch ∈ chunk, ch ∉ seps) →
    ∀ c ∈ packGo maxLen ps chunks chunk,
      c.length ≤ maxLen ∨ ∀ ch ∈ c, ch ∉ seps := by
  induction ps with
  | nil =>
    intro chunks chunk _ hchunks hchunk c hc
    unfold packGo at hc
    by_cases h : chunk ≠ []
    · rw [if_pos h] at hc
      rcases List.mem_append.mp hc with hc | hc
      · exact hchunks c hc
      · rcases List.mem_singleton.mp hc with rfl
        rcases hchunk with rfl | hchunk
        · exact absurd rfl h
        · exact hchunk
    · rw [if_neg h] at hc
      exact hchunks c hc
  | cons p ps ih =>
    intro chunks chunk hps hchunks hchunk c hc
    have hp := hps p (List.mem_cons_self p ps)
    have hps' : ∀ q ∈ ps, q.length ≤ 1 ∨ ∀ ch ∈ q, ch ∉ seps :=
      fun q hq => hps q (List.mem_cons_of_mem p hq)
    have hpGood : p = [] ∨ p.length ≤ maxLen ∨ ∀ ch ∈ p, ch ∉ seps := by
      rcases hp with hp | hp
      · right; left; omega
      · right; right; exact hp
    unfold packGo at hc
    by_cases h : chunk.length + p.length > maxLen ∧ chunk ≠ []
    · rw [if_pos h] at hc
      refine ih (chunks ++ [chunk]) p hps' ?_ hpGood c hc
      intro d hd
      rcases List.mem_append.mp hd with hd | hd
      · exact hchunks d hd
      · rcases List.mem_singleton.mp hd with rfl
        rcases hchunk with rfl | hchunk
        · exact absurd rfl h.2
        · exact hchunk
    · rw [if_neg h] at hc
      refine ih chunks (chunk ++ p) hps' hchunks ?_ c hc
      rcases hchunk with rfl | hchunk
      · simpa using hpGood
      · rcases not_and_or.mp h with h1 | h2
        · right; left; simpa using Nat.le_of_not_lt h1
        · rw [not_not] at h2; subst h2; simpa using hpGood

theorem trimSegs_initial (l : List Seg) (r : Nat) :
    ∃ t, trimSegs l r ++ t = l := by
  induction l generalizing r with
  | nil => exact ⟨[], rfl⟩
  | cons sg rest ih =>
    unfold trimSegs
    by_cases h : r + sg.text.length > 9800
    · rw [if_pos h]; exact ⟨sg :: rest, rfl⟩
    · rw [if_neg h]
      obtain ⟨t, ht⟩ := ih (r + sg.text.length)
      exact ⟨t, by simp [ht]⟩

theorem trimSegs_le (l : List Seg) (r : Nat) (hr : r ≤ 9800) :
    r + totalLen (trimSegs l r) ≤ 9800 := by
  induction l generalizing r with
  | nil => simpa [trimSegs, totalLen]
  | cons sg rest ih =>
    unfold trimSegs
    by_cases h : r + sg.text.length > 9800
    · rw [if_pos h]; simpa [totalLen]
    · rw [if_neg h]
      have := ih (r + sg.text.length) (Nat.le_of_not_lt h)
      simp [totalLen]
      omega

theorem mem_trimSegs (l : List Seg) (r : Nat) (sg : Seg)
    (h : sg ∈ trimSegs l r) : sg ∈ l := by
  obtain ⟨t, ht⟩ := trimSegs_initial l r
  rw [← ht]
  exact List.mem_append_left t h

theorem mem_buildSegs (ts : List Turn) (sg : Seg) (h : sg ∈ buildSegs ts) :
    ∃ t ∈ ts, sg ∈ turnSegments t := by
  induction ts with
  | nil => simp [buildSegs] at h
  | cons t ts ih =>
    unfold buildSegs at h
    rcases List.mem_append.mp h with h | h
    · exact ⟨t, List.mem_cons_self t ts, h⟩
    · obtain ⟨t2, ht2, hsg⟩ := ih h
      exact ⟨t2, List.mem_cons_of_mem t ht2, hsg⟩

/-- Every segment a single turn yields is within 300 characters or is
an oversized separator-free run. -/
theorem turnSegments_bound (t : Turn) (sg : Seg) (h : sg ∈ turnSegments t) :
    sg.text.length ≤ 300 ∨ ∀ c ∈ sg.text, c ∉ seps := by
  unfold turnSegments at h
  by_cases he : pyStrip t.text = []
  · rw [if_pos he] at h; simp at h
  · rw [if_neg he] at h
    by_cases hlen : (pyStrip t.text).length ≤ 300
    · rw [if_pos hlen] at h
      rcases List.mem_singleton.mp h with rfl
      exact Or.inl hlen
    · rw [if_neg hlen] at h
      obtain ⟨chunk, hchunk, rfl⟩ := List.mem_map.mp h
      have hinv := packGo_inv 280 (by omega) (pySplitKeep (pyStrip t.text)) [] []
        (pySplitKeep_pieces (pyStrip t.text)).1 (by simp) (Or.inl rfl)
        chunk hchunk
      rcases hinv with hinv | hinv
      · left; show chunk.length ≤ 300; omega
      · exact Or.inr hinv

/-! ## Claims C5, C6, C7 -/

def c5turn : Turn := ⟨"v", List.replicate 301 'a'⟩

set_option maxRecDepth 100000 in
/-- C5 counterexample: a 301-character turn with no sentence-ending
punctuation yields a single segment of 301 characters, so the claim
that every emitted segment has at most 300 characters is false. -/
theorem C5_counterexample :
    ¬ ∀ sg ∈ (build_nlp_texts [c5turn]).1, sg.text.length ≤ 300 := by
  decide

/-- C5 amended: every segment emitted by the segmenter has at most 300
characters unless it is a single sentence fragment containing no
sentence-ending punctuation at all (an oversized sentence that the
splitter deliberately emits whole). -/
theorem C5_amended (turns : List Turn) (sg : Seg)
    (h : sg ∈ (build_nlp_texts turns).1) :
    sg.text.length ≤ 300 ∨ ∀ c ∈ sg.text, c ∉ seps := by
  have hpre : sg ∈ buildSegs turns := by
    unfold build_nlp_texts at h
    by_cases ht : totalLen (buildSegs turns) > 10000
    · rw [if_pos ht] at h
      exact mem_trimSegs _ _ _ h
    · rw [if_neg ht] at h
      exact h
  obtain ⟨t, _, hsg⟩ := mem_buildSegs turns sg hpre
  exact turnSegments_bound t sg hsg

set_option maxRecDepth 100000 in
/-- C5 amended, instantiated: the oversized punctuation-free segment of
the counterexample turn falls under the second disjunct. -/
theorem C5_amended_witness :
    (⟨List.replicate 301 'a', "v"⟩ : Seg).text.length ≤ 300 ∨
    ∀ c ∈ (⟨List.replicate 301 'a', "v"⟩ : Seg).text, c ∉ seps :=
  C5_amended [c5turn] ⟨List.replicate 301 'a', "v"⟩ (by decide)

def c6turns : List Turn := List.replicate 60 ⟨"v", List.replicate 200 'a'⟩

set_option maxRecDepth 100000 in
/-- C6 counterexample: on sixty 200-character turns (12000 characters
in total) the truncation warning reports the pre-trim total 12000 and
not the number of trimmed characters (2200), so the reporting part of
the claim is false on the code. -/
theorem C6_counterexample :
    (build_nlp_texts c6turns).2 = some 12000 ∧
    totalLen (buildSegs c6turns) - totalLen (build_nlp_texts c6turns).1 = 2200 ∧
    (build_nlp_texts c6turns).2 ≠ some 2200 := by
  decide

/-- C6 amended: when the total exceeds 10000 the retained segments are
an order-preserving prefix of the pre-trim list whose total is at most
9800, and the warning reports the pre-trim total character count (not
the trimmed amount); when the total is at most 10000 the list is
returned unchanged with no warning. -/
theorem C6_amended (turns : List Turn) :
    ((build_nlp_texts turns).2 = none →
      (build_nlp_texts turns).1 = buildSegs turns ∧
      totalLen (buildSegs turns) ≤ 10000) ∧
    (∀ n, (build_nlp_texts turns).2 = some n →
      n = totalLen (buildSegs turns) ∧
      10000 < totalLen (buildSegs turns) ∧
      (∃ t, (build_nlp_texts turns).1 ++ t = buildSegs turns) ∧
      totalLen (build_nlp_texts turns).1 ≤ 9800) := by
  unfold build_nlp_texts
  by_cases ht : totalLen (buildSegs turns) > 10000
  · rw [if_pos ht]
    refine ⟨by simp, ?_⟩
    intro n hn
    simp at hn
    refine ⟨hn.symm, ht, trimSegs_initial _ 0, ?_⟩
    simpa using trimSegs_le (buildSegs turns) 0 (by omega)
  · rw [if_neg ht]
    exact ⟨fun _ => ⟨rfl, Nat.le_of_not_lt ht⟩, fun n hn => by simp at hn⟩

set_option maxRecDepth 100000 in
/-- C6 amended, instantiated at the sixty-turn counterexample input. -/
theorem C6_amended_witness :
    12000 = totalLen (buildSegs c6turns) ∧
    10000 < totalLen (buildSegs c6turns) ∧
    (∃ t, (build_nlp_texts c6turns).1 ++ t = buildSegs c6turns) ∧
    totalLen (build_nlp_texts c6turns).1 ≤ 9800 :=
  (C6_amended c6turns).2 12000 (by decide)

set_option maxRecDepth 100000 in
/-- C7 counterexample: the segmenter strips each turn before
splitting, so a turn whose text carries trailing whitespace is not
reproduced exactly by concatenating its segments. -/
theorem C7_counterexample :
    joinAll ((turnSegments ⟨"v", ['a', ' ']⟩).map Seg.text) ≠ ['a', ' '] := by
  decide

/-- C7 amended: for every turn, concatenating the texts of the
segments produced for that turn, in emission order, reproduces the
turn's original text with leading and trailing whitespace stripped
(turns that are blank after stripping yield no segments). -/
theorem C7_amended (turn : Turn) :
    joinAll ((turnSegments turn).map Seg.text) = pyStrip turn.text := by
  unfold turnSegments
  by_cases he : pyStrip turn.text = []
  · rw [if_pos he]; simp [joinAll, he]
  · rw [if_neg he]
    by_cases hlen : (pyStrip turn.text).length ≤ 300
    · rw [if_pos hlen]; simp [joinAll]
    · rw [if_neg hlen]
      rw [List.map_map]
      have hid : (Seg.text ∘ fun chunk => (⟨chunk, turn.speaker⟩ : Seg))
          = id := rfl
      rw [hid, List.map_id]
      exact split_text_join (pyStrip turn.text) 280

/-! ## Protocol lemmas -/

theorem commitRound_eq (s : RunState) :
    commitRound s
      = { s with podcast_audio := s.podcast_audio ++ s.round_audio,
                 round_audio := [] } := by
  cases s with
  | mk pa ra rc cr lr ti ire rn rinfo =>
    by_cases h : ra = ([] : List Nat) <;> simp [commitRound, h]

theorem finishRun_committed (s : RunState) (n : Nat)
    (infos : List (Option (Nat × Int))) (exh : Bool) :
    (finishRun s n infos exh).committed = s.podcast_audio := by
  unfold finishRun; split <;> rfl

theorem finishRun_infos (s : RunState) (n : Nat)
    (infos : List (Option (Nat × Int))) (exh : Bool) :
    (finishRun s n infos exh).sentRetryInfos = infos := by
  unfold finishRun; split <;> rfl

theorem finishRun_exhausted (s : RunState) (n : Nat)
    (infos : List (Option (Nat × Int))) (exh : Bool) :
    (finishRun s n infos exh).exhausted = exh := by
  unfold finishRun; split <;> rfl

theorem finishRun_attempts (s : RunState) (n : Nat)
    (infos : List (Option (Nat × Int))) (exh : Bool) :
    (finishRun s n infos exh).attemptsUsed = n := by
  unfold finishRun; split <;> rfl

theorem finishRun_cases (s : RunState) (n : Nat)
    (infos : List (Option (Nat × Int))) (exh : Bool) :
    (s.podcast_audio = [] →
      (finishRun s n infos exh).ok = false ∧
      (finishRun s n infos exh).written = none) ∧
    (s.podcast_audio ≠ [] →
      (finishRun s n infos exh).ok = true ∧
      (finishRun s n infos exh).written = some s.podcast_audio) := by
  unfold finishRun
  constructor
  · intro h; rw [if_pos h]; exact ⟨rfl, rfl⟩
  · intro h; rw [if_neg h]; exact ⟨rfl, rfl⟩

/-- Whenever the retry loop ends by exhausting the budget, the outcome
comes from the save epilogue: failure with no file exactly when the
committed buffer is empty, otherwise success with the partial buffer
written. -/
theorem retryLoop_exhausted (scripts : List AttemptScript) :
    ∀ (s : RunState) (n : Nat) (infos : List (Option (Nat × Int))),
    (retryLoop scripts s n infos).exhausted = true →
    ((retryLoop scripts s n infos).committed = [] →
      (retryLoop scripts s n infos).ok = false ∧
      (retryLoop scripts s n infos).written = none) ∧
    ((retryLoop scripts s n infos).committed ≠ [] →
      (retryLoop scripts s n infos).ok = true ∧
      (retryLoop scripts s n infos).written
        = some (retryLoop scripts s n infos).committed) := by
  induction scripts with
  | nil =>
    intro s n infos hex
    unfold retryLoop at hex ⊢
    by_cases hz : s.retry_num = 0
    · rw [if_pos hz] at hex ⊢
      rw [finishRun_committed]
      constructor
      · intro h; exact (finishRun_cases s n infos true).1 h
      · intro h
        exact ⟨((finishRun_cases s n infos true).2 h).1,
          ((finishRun_cases s n infos true).2 h).2⟩
    · rw [if_neg hz] at hex
      simp [fatalRun] at hex
  | cons sc rest ih =>
    intro s n infos hex
    unfold retryLoop at hex ⊢
    by_cases hz : s.retry_num = 0
    · rw [if_pos hz] at hex ⊢
      rw [finishRun_committed]
      constructor
      · intro h; exact (finishRun_cases s n infos true).1 h
      · intro h
        exact ⟨((finishRun_cases s n infos true).2 h).1,
          ((finishRun_cases s n infos true).2 h).2⟩
    · rw [if_neg hz] at hex ⊢
      by_cases hpre : sc.preFail = true
      · rw [if_pos hpre] at hex
        simp [fatalRun] at hex
      · rw [if_neg hpre] at hex ⊢
        cases hEq : streamLoop sc.msgs (attemptStart s (n + 1)) with
        | mk s1 ex =>
          rw [hEq] at hex
          cases ex with
          | fatal => simp [fatalRun] at hex
          | brk =>
            simp only [] at hex ⊢
            by_cases hpost : sc.postFail = true
            · rw [if_pos hpost] at hex
              simp [fatalRun] at hex
            · rw [if_neg hpost] at hex ⊢
              by_cases hend : s1.is_round_end = true
              · rw [if_pos hend] at hex
                rw [finishRun_exhausted] at hex
                exact absurd hex (by simp)
              · rw [if_neg hend] at hex ⊢
                exact ih _ _ _ hex

/-! ## Claims C1, C2, C3, C4, C8 -/

def c1attempt1 : AttemptScript :=
  ⟨false, [rsMsg 1, audMsg [7], reOk, rsMsg 2, reErr], false⟩

def c1attemptErr : AttemptScript := ⟨false, [rsMsg 2, reErr], false⟩

def c1scripts : List AttemptScript :=
  [c1attempt1, c1attemptErr, c1attemptErr, c1attemptErr, c1attemptErr]

/-- C1 counterexample: round 1 commits one byte, every later attempt
ends in a round error until the retry budget is exhausted — yet the run
reports success and writes the partial artifact, contradicting the
claim that it reports failure with no output file. -/
theorem C1_counterexample :
    (generate_podcast c1scripts).exhausted = true ∧
    (generate_podcast c1scripts).ok = true ∧
    (generate_podcast c1scripts).written = some [7] := by
  decide

/-- C1 amended: when the retry budget is exhausted the run fails with
no output file exactly when nothing was committed; if earlier rounds
committed audio, the partial committed buffer is written and the run
reports success. -/
theorem C1_amended (scripts : List AttemptScript)
    (hex : (generate_podcast scripts).exhausted = true) :
    ((generate_podcast scripts).committed = [] →
      (generate_podcast scripts).ok = false ∧
      (generate_podcast scripts).written = none) ∧
    ((generate_podcast scripts).committed ≠ [] →
      (generate_podcast scripts).ok = true ∧
      (generate_podcast scripts).written
        = some (generate_podcast scripts).committed) :=
  retryLoop_exhausted scripts initRunState 0 [] hex

def c1emptyScripts : List AttemptScript :=
  List.replicate 5 ⟨false, [rsMsg 1, reErr], false⟩

/-- C1 amended, instantiated: five audio-free failing attempts exhaust
the budget with nothing committed, and the run fails with no file. -/
theorem C1_amended_witness :
    (generate_podcast c1emptyScripts).ok = false ∧
    (generate_podcast c1emptyScripts).written = none :=
  (C1_amended c1emptyScripts (by decide)).1 (by decide)

def c2good : AttemptScript := ⟨false, [rsMsg 1, audMsg [9], reOk, sfMsg], false⟩

/-- C2 counterexample: a transport failure on the first connect ends
the whole run at once — failure, no file, exactly one attempt — even
though the retry budget remains and the very next scripted attempt
would have succeeded, contradicting the claim that a transport failure
triggers a budget decrement, backoff and reconnect. -/
theorem C2_counterexample :
    (generate_podcast [⟨true, [], false⟩, c2good]).ok = false ∧
    (generate_podcast [⟨true, [], false⟩, c2good]).written = none ∧
    (generate_podcast [⟨true, [], false⟩, c2good]).attemptsUsed = 1 ∧
    (generate_podcast [c2good]).ok = true := by
  decide

/-- Equation for an attempt whose receive loop ends fatally. -/
theorem retryLoop_cons_fatal (sc : AttemptScript) (rest : List AttemptScript)
    (s s1 : RunState) (n : Nat) (infos : List (Option (Nat × Int)))
    (hb : ¬ s.retry_num = 0) (hpre : ¬ sc.preFail = true)
    (hEq : streamLoop sc.msgs (attemptStart s (n + 1)) = (s1, LoopExit.fatal)) :
    retryLoop (sc :: rest) s n infos
      = fatalRun s1.podcast_audio (n + 1) (infos ++ [sentInfo s]) := by
  conv_lhs => rw [retryLoop]
  rw [if_neg hb, if_neg hpre, hEq]

/-- Equation for an attempt whose receive loop ends with a break. -/
theorem retryLoop_cons_brk (sc : AttemptScript) (rest : List AttemptScript)
    (s s1 : RunState) (n : Nat) (infos : List (Option (Nat × Int)))
    (hb : ¬ s.retry_num = 0) (hpre : ¬ sc.preFail = true)
    (hEq : streamLoop sc.msgs (attemptStart s (n + 1)) = (s1, LoopExit.brk)) :
    retryLoop (sc :: rest) s n infos
      = if sc.postFail = true then
          fatalRun s1.podcast_audio (n + 1) (infos ++ [sentInfo s])
        else if s1.is_round_end = true then
          finishRun s1 (n + 1) (infos ++ [sentInfo s]) false
        else
          retryLoop rest { s1 with retry_num := s1.retry_num - 1 } (n + 1)
            (infos ++ [sentInfo s]) := by
  conv_lhs => rw [retryLoop]
  rw [if_neg hb, if_neg hpre, hEq]

/-- C2 amended: a transport failure at any suspension point of an
attempt (connect, a receive that raises, or connection teardown) is
caught by the outermost handler and terminates the run immediately
with failure and no artifact, consuming no further attempt — it is not
treated like a round-level error. -/
theorem C2_amended (sc : AttemptScript) (rest : List AttemptScript)
    (s : RunState) (n : Nat) (infos : List (Option (Nat × Int)))
    (hb : ¬ s.retry_num = 0)
    (hf : sc.preFail = true ∨
      (streamLoop sc.msgs (attemptStart s (n + 1))).2 = LoopExit.fatal ∨
      ((streamLoop sc.msgs (attemptStart s (n + 1))).2 = LoopExit.brk ∧
        sc.postFail = true)) :
    (retryLoop (sc :: rest) s n infos).ok = false ∧
    (retryLoop (sc :: rest) s n infos).written = none ∧
    (retryLoop (sc :: rest) s n infos).attemptsUsed = n + 1 := by
  by_cases hpre : sc.preFail = true
  · unfold retryLoop
    rw [if_neg hb, if_pos hpre]
    exact ⟨rfl, rfl, rfl⟩
  · cases hEq : streamLoop sc.msgs (attemptStart s (n + 1)) with
    | mk s1 ex =>
      rcases hf with hf | hf | hf
      · exact absurd hf hpre
      · cases ex with
        | fatal =>
          rw [retryLoop_cons_fatal sc rest s s1 n infos hb hpre hEq]
          exact ⟨rfl, rfl, rfl⟩
        | brk =>
          rw [hEq] at hf
          simp at hf
      · cases ex with
        | fatal =>
          rw [hEq] at hf
          simp at hf
        | brk =>
          rw [retryLoop_cons_brk sc rest s s1 n infos hb hpre hEq, if_pos hf.2]
          exact ⟨rfl, rfl, rfl⟩

/-- C2 amended, instantiated at a failing connect with a full budget. -/
theorem C2_amended_witness :
    (retryLoop [⟨true, [], false⟩] initRunState 0 []).ok = false ∧
    (retryLoop [⟨true, [], false⟩] initRunState 0 []).written = none ∧
    (retryLoop [⟨true, [], false⟩] initRunState 0 []).attemptsUsed = 1 :=
  C2_amended ⟨true, [], false⟩ [] initRunState 0 [] (by decide) (Or.inl rfl)

def c3attempt1 (a1 a2 a3 : List Nat) : AttemptScript :=
  ⟨false, [rsMsg 1, audMsg a1, reOk, rsMsg 2, audMsg a2, reOk,
           rsMsg 3, audMsg a3, reErr], false⟩

def c3attempt2 (a3 a4 a5 : List Nat) : AttemptScript :=
  ⟨false, [rsMsg 3, audMsg a3, reOk, rsMsg 4, audMsg a4, reOk,
           rsMsg 5, audMsg a5, reOk, sfMsg], false⟩

/-- C3: when the first attempt succeeds on rounds 1 and 2 and hits a
round-end error on round 3, the second attempt's request carries
`retry_info` with the stable task id (the first attempt's session id)
and last completed round id 2, and after the resumed stream delivers
rounds 3-5 and session-finished, the committed buffer is exactly the
concatenation of rounds 1 through 5 in order, rounds 1-2 included
exactly once. -/
theorem C3_resume (a1 a2 a3 a4 a5 : List Nat) :
    (generate_podcast [c3attempt1 a1 a2 a3, c3attempt2 a3 a4 a5]).sentRetryInfos
      = [none, some (1, 2)] ∧
    (generate_podcast [c3attempt1 a1 a2 a3, c3attempt2 a3 a4 a5]).committed
      = a1 ++ a2 ++ a3 ++ a4 ++ a5 := by
  constructor <;>
    simp [generate_podcast, retryLoop, streamLoop, attemptStart, sentInfo,
      initRunState, c3attempt1, c3attempt2, rsMsg, audMsg, reOk, reErr, sfMsg,
      commitRound_eq, finishRun_committed, finishRun_infos, fatalRun,
      List.append_assoc]

/-- The accumulator discipline exactly as claim C4 states it: pending
is reset on each round-start event, appended to committed and cleared
on a round-end success, cleared without appending on a round-end
error; error-typed messages and session-finished end the stream. -/
def specAccumulate : List Msg → List Nat → List Nat → List Nat × List Nat
  | [], committed, pending => (committed, pending)
  | m :: rest, committed, pending =>
    if m.type = MsgType.AudioOnlyServer ∧ m.event = EventType.PodcastRoundResponse then
      specAccumulate rest committed (pending ++ m.payload)
    else if m.type = MsgType.Error then (committed, pending)
    else if m.type = MsgType.FullServerResponse ∧ m.event = EventType.PodcastRoundStart then
      specAccumulate rest committed []
    else if m.type = MsgType.FullServerResponse ∧ m.event = EventType.PodcastRoundEnd then
      if m.isError then specAccumulate rest committed []
      else specAccumulate rest (committed ++ pending) []
    else if m.event = EventType.SessionFinished then (committed, pending)
    else specAccumulate rest committed pending

def c4msgs : List Msg :=
  [rsMsg 1, audMsg [7], rsMsg 2, audMsg [8], reOk, sfMsg]

/-- C4 counterexample: the code never clears the pending buffer on a
round-start, so when round 1 streams a byte, round 2 starts without
round 1 ending and round 2 ends successfully, the code commits the
bytes of both rounds while the claimed discipline commits only round
2's byte — and the committed buffer contains a byte of a round that
never ended successfully. -/
theorem C4_counterexample :
    (generate_podcast [⟨false, c4msgs, false⟩]).committed = [7, 8] ∧
    (specAccumulate c4msgs [] []).1 = [8] ∧
    (generate_podcast [⟨false, c4msgs, false⟩]).committed
      ≠ (specAccumulate c4msgs [] []).1 := by
  decide

/-- The accumulator discipline the code actually implements: committed
is append-only; pending is reset at the start of each connection
attempt and cleared when a round-end success appends it to committed;
it is not reset on round-start, so a round-end success commits every
byte received since the previous commit (or attempt start); a
round-end error aborts the attempt, discarding pending without
appending. -/
def accumModel : List Msg → List Nat → List Nat → List Nat
  | [], committed, _ => committed
  | m :: rest, committed, pending =>
    if m.type = MsgType.AudioOnlyServer ∧ m.event = EventType.PodcastRoundResponse then
      accumModel rest committed (pending ++ m.payload)
    else if m.type = MsgType.Error then committed
    else if m.type = MsgType.FullServerResponse ∧ m.event = EventType.PodcastRoundStart then
      accumModel rest committed pending
    else if m.type = MsgType.FullServerResponse ∧ m.event = EventType.PodcastRoundEnd then
      if m.isError then committed
      else accumModel rest (committed ++ pending) []
    else if m.event = EventType.SessionFinished then committed
    else accumModel rest committed pending

/-- C4 amended: on every message sequence the committed buffer computed
by the receive loop follows `accumModel` — append-only, pending kept
across round-starts, committed at round-end success, discarded at
round-end error — independently of the protocol bookkeeping fields. -/
theorem C4_amended (msgs : List Msg) (s : RunState) :
    (streamLoop msgs s).1.podcast_audio
      = accumModel msgs s.podcast_audio s.round_audio ∧
    ∃ t, (streamLoop msgs s).1.podcast_audio = s.podcast_audio ++ t := by
  induction msgs generalizing s with
  | nil => exact ⟨rfl, [], by simp [streamLoop]⟩
  | cons m rest ih =>
    by_cases h1 : m.type = MsgType.AudioOnlyServer ∧ m.event = EventType.PodcastRoundResponse
    · have hs : streamLoop (m :: rest) s
          = streamLoop rest { s with round_audio := s.round_audio ++ m.payload } := by
        conv_lhs => rw [streamLoop]
        rw [if_pos h1]
      have ha : accumModel (m :: rest) s.podcast_audio s.round_audio
          = accumModel rest s.podcast_audio (s.round_audio ++ m.payload) := by
        conv_lhs => rw [accumModel]
        rw [if_pos h1]
      rw [hs, ha]
      exact ih { s with round_audio := s.round_audio ++ m.payload }
    · by_cases h2 : m.type = MsgType.Error
      · have hs : streamLoop (m :: rest) s = (s, LoopExit.fatal) := by
          conv_lhs => rw [streamLoop]
          rw [if_neg h1, if_pos h2]
        have ha : accumModel (m :: rest) s.podcast_audio s.round_audio
            = s.podcast_audio := by
          conv_lhs => rw [accumModel]
          rw [if_neg h1, if_pos h2]
        rw [hs, ha]
        exact ⟨rfl, [], by simp⟩
      · by_cases h3 : m.type = MsgType.FullServerResponse ∧ m.event = EventType.PodcastRoundStart
        · have hs : streamLoop (m :: rest) s
              = streamLoop rest
                  { s with current_round := m.roundId,
                           round_count := s.round_count + 1,
                           is_round_end := false } := by
            conv_lhs => rw [streamLoop]
            rw [if_neg h1, if_neg h2, if_pos h3]
          have ha : accumModel (m :: rest) s.podcast_audio s.round_audio
              = accumModel rest s.podcast_audio s.round_audio := by
            conv_lhs => rw [accumModel]
            rw [if_neg h1, if_neg h2, if_pos h3]
          rw [hs, ha]
          exact ih _
        · by_cases h4 : m.type = MsgType.FullServerResponse ∧ m.event = EventType.PodcastRoundEnd
          · by_cases herr : m.isError = true
            · have hs : streamLoop (m :: rest) s = (s, LoopExit.brk) := by
                conv_lhs => rw [streamLoop]
                rw [if_neg h1, if_neg h2, if_neg h3, if_pos h4, if_pos herr]
              have ha : accumModel (m :: rest) s.podcast_audio s.round_audio
                  = s.podcast_audio := by
                conv_lhs => rw [accumModel]
                rw [if_neg h1, if_neg h2, if_neg h3, if_pos h4, if_pos herr]
              rw [hs, ha]
              exact ⟨rfl, [], by simp⟩
            · have hs : streamLoop (m :: rest) s
                  = streamLoop rest
                      { s with podcast_audio := s.podcast_audio ++ s.round_audio,
                               round_audio := [],
                               is_round_end := true,
                               last_round_id := s.current_round } := by
                conv_lhs => rw [streamLoop]
                rw [if_neg h1, if_neg h2, if_neg h3, if_pos h4, if_neg herr,
                  commitRound_eq]
              have ha : accumModel (m :: rest) s.podcast_audio s.round_audio
                  = accumModel rest (s.podcast_audio ++ s.round_audio) [] := by
                conv_lhs => rw [accumModel]
                rw [if_neg h1, if_neg h2, if_neg h3, if_pos h4, if_neg herr]
              rw [hs, ha]
              obtain ⟨heq, t, ht⟩ := ih
                { s with podcast_audio := s.podcast_audio ++ s.round_audio,
                         round_audio := [],
                         is_round_end := true,
                         last_round_id := s.current_round }
              refine ⟨heq, s.round_audio ++ t, ?_⟩
              simpa [List.append_assoc] using ht
          · by_cases h5 : m.event = EventType.SessionFinished
            · have hs : streamLoop (m :: rest) s = (s, LoopExit.brk) := by
                conv_lhs => rw [streamLoop]
                rw [if_neg h1, if_neg h2, if_neg h3, if_neg h4, if_pos h5]
              have ha : accumModel (m :: rest) s.podcast_audio s.round_audio
                  = s.podcast_audio := by
                conv_lhs => rw [accumModel]
                rw [if_neg h1, if_neg h2, if_neg h3, if_neg h4, if_pos h5]
              rw [hs, ha]
              exact ⟨rfl, [], by simp⟩
            · have hs : streamLoop (m :: rest) s = streamLoop rest s := by
                conv_lhs => rw [streamLoop]
                rw [if_neg h1, if_neg h2, if_neg h3, if_neg h4, if_neg h5]
              have ha : accumModel (m :: rest) s.podcast_audio s.round_audio
                  = accumModel rest s.podcast_audio s.round_audio := by
                conv_lhs => rw [accumModel]
                rw [if_neg h1, if_neg h2, if_neg h3, if_neg h4, if_neg h5]
              rw [hs, ha]
              exact ih s

/-- C8: an error-typed message makes the receive loop return failure
at once from any state, and an attempt whose receive loop ends fatally
ends the whole run immediately — failure, no artifact written, and no
further attempt regardless of the remaining retry budget or of audio
already committed. -/
theorem C8_error_message (sm : RunState) (m : Msg) (restMsgs : List Msg)
    (hm : m.type = MsgType.Error)
    (sc : AttemptScript) (rest : List AttemptScript) (s : RunState) (n : Nat)
    (infos : List (Option (Nat × Int)))
    (hb : ¬ s.retry_num = 0) (hpre : ¬ sc.preFail = true)
    (hf : (streamLoop sc.msgs (attemptStart s (n + 1))).2 = LoopExit.fatal) :
    streamLoop (m :: restMsgs) sm = (sm, LoopExit.fatal) ∧
    (retryLoop (sc :: rest) s n infos).ok = false ∧
    (retryLoop (sc :: rest) s n infos).written = none ∧
    (retryLoop (sc :: rest) s n infos).attemptsUsed = n + 1 := by
  have hloop : streamLoop (m :: restMsgs) sm = (sm, LoopExit.fatal) := by
    have h1 : ¬ (m.type = MsgType.AudioOnlyServer ∧
        m.event = EventType.PodcastRoundResponse) := by
      intro hcon
      rw [hm] at hcon
      exact absurd hcon.1 (by simp)
    conv_lhs => rw [streamLoop]
    rw [if_neg h1, if_pos hm]
  refine ⟨hloop, ?_⟩
  cases hEq : streamLoop sc.msgs (attemptStart s (n + 1)) with
  | mk s1 ex =>
    rw [hEq] at hf
    cases ex with
    | brk => simp at hf
    | fatal =>
      rw [retryLoop_cons_fatal sc rest s s1 n infos hb hpre hEq]
      exact ⟨rfl, rfl, rfl⟩

/-- C8, instantiated: an error message arriving after a committed
round ends the run with failure and no file even though four retries
remain. -/
theorem C8_witness :
    streamLoop [errMsg] initRunState = (initRunState, LoopExit.fatal) ∧
    (retryLoop [⟨false, [rsMsg 1, audMsg [6], reOk, errMsg], false⟩]
        initRunState 0 []).ok = false ∧
    (retryLoop [⟨false, [rsMsg 1, audMsg [6], reOk, errMsg], false⟩]
        initRunState 0 []).written = none ∧
    (retryLoop [⟨false, [rsMsg 1, audMsg [6], reOk, errMsg], false⟩]
        initRunState 0 []).attemptsUsed = 1 :=
  C8_error_message initRunState errMsg [] rfl
    ⟨false, [rsMsg 1, audMsg [6], reOk, errMsg], false⟩ [] initRunState 0 []
    (by decide) (by decide) (by decide)

/-- When no processed line matches the marker regex the line fold
leaves a state with no open speaker untouched. -/
theorem foldl_stepLine_noMatch (a b : String) (lines : List (List Char)) :
    ∀ st : PState, st.current = none →
    (∀ l ∈ lines, matchMarker (pyStrip l) = none) →
    lines.foldl (stepLine a b) st = st := by
  induction lines with
  | nil => intro st _ _; rfl
  | cons l ls ih =>
    intro st hcur h
    have hstep : stepLine a b st l = st := by
      unfold stepLine
      by_cases he : pyStrip l = []
      · rw [if_pos he]
      · rw [if_neg he]
        simp only [h l (List.mem_cons_self l ls), hcur]
    rw [List.foldl_cons, hstep]
    exact ih st hcur (fun l2 hl2 => h l2 (List.mem_cons_of_mem l hl2))

/-- C9: on input where no line matches a speaker marker, the parser
returns the empty turn list and the text-mode entry point reports a
fatal configuration error (exit code 1) before the protocol session —
and hence any connection attempt — is ever started. -/
theorem C9_no_marker (text : List Char) (a b : String)
    (h : ∀ l ∈ splitNl (pyStrip text), matchMarker (pyStrip l) = none) :
    parse_podcast_script text a b = [] ∧
    mainTextMode text a b = Except.error 1 := by
  have hp : parse_podcast_script text a b = [] := by
    unfold parse_podcast_script
    rw [foldl_stepLine_noMatch a b (splitNl (pyStrip text)) ⟨[], [], none, []⟩ rfl h]
    rfl
  refine ⟨hp, ?_⟩
  simp only [mainTextMode, hp]
  rfl

/-- C9, instantiated on a markerless input line. -/
theorem C9_witness :
    parse_podcast_script "hello world no markers".toList "va" "vb" = [] ∧
    mainTextMode "hello world no markers".toList "va" "vb" = Except.error 1 :=
  C9_no_marker "hello world no markers".toList "va" "vb" (by decide)

/-- C10: the first non-reserved marker token is bound to the first
voice, every later distinct non-reserved token is bound to the second
voice, and a script with three distinct speaker tokens is parsed
without error into turns voiced by the two configured voices only
(first token to voice one, both later tokens to voice two). -/
theorem C10_extra_speakers (smap : List (List Char × String)) (raw : List Char)
    (a b : String) (hne : smap ≠ [])
    (hA : isReservedA raw = false) (hB : isReservedB raw = false)
    (hnew : lookupTok smap raw = none) :
    resolveSpeaker raw smap a b = (b, smap ++ [(raw, b)]) ∧
    (∀ raw2 : List Char, ∀ a2 b2 : String,
      isReservedA raw2 = false → isReservedB raw2 = false →
      resolveSpeaker raw2 [] a2 b2 = (a2, [(raw2, a2)])) ∧
    parse_podcast_script "X: hi\nY: yo\nZ: hey".toList a b
      = [⟨a, "hi".toList⟩, ⟨b, "yo".toList⟩, ⟨b, "hey".toList⟩] := by
  refine ⟨?_, ?_, ?_⟩
  · have hlen : smap.length ≠ 0 := by
      cases smap with
      | nil => exact absurd rfl hne
      | cons p ps => simp
    simp [resolveSpeaker, hA, hB, hnew, hlen]
  · intro raw2 a2 b2 h2A h2B
    simp [resolveSpeaker, h2A, h2B, lookupTok]
  · rfl

/-- C10, instantiated: with one token already mapped, a fresh
non-reserved token is bound to the second voice. -/
theorem C10_witness :
    resolveSpeaker "Y".toList [("X".toList, "va")] "va" "vb"
      = ("vb", [("X".toList, "va"), ("Y".toList, "vb")]) :=
  (C10_extra_speakers [("X".toList, "va")] "Y".toList "va" "vb"
    (by decide) (by decide) (by decide) (by decide)).1

end Podcast
